import Mathlib

/-!
Verification of the PD (placement driver) cluster-state core against its
natural-language specification.  The Go source under scrutiny is shallowly
embedded: each Go function named below is translated into an executable Lean
definition over explicit state, and the properties claimed by the spec are
proved or refuted about those definitions.
-/

namespace PDVerify

/-! ## Data model: min-resolved-ts (server/cluster/cluster.go) -/

/-- Largest value of a Go uint64, used by the source as the sentinel
min-resolved-ts. -/
def maxUint64 : Nat := 2 ^ 64 - 1

/-- Projection of a store used by checkAndUpdateMinResolvedTS: whether
core.IsAvailableForMinResolvedTS holds for it, and its reported
min-resolved-ts. -/
structure StoreMRT where
  available : Bool
  minResolvedTS : Nat
  deriving Repr, DecidableEq

/-- The part of RaftCluster state that min-resolved-ts maintenance reads and
writes: the isInitialized flag, the store list, and the stored
minResolvedTS. -/
structure ClusterMRT where
  inited : Bool
  stores : List StoreMRT
  minResolvedTS : Nat
  deriving Repr, DecidableEq

/-- The loop of checkAndUpdateMinResolvedTS (cluster.go:2107-2115): start from
MaxUint64 and lower it to each available store's reported value that is
smaller. -/
def curMinResolvedTS (stores : List StoreMRT) : Nat :=
  stores.foldl
    (fun acc s =>
      if s.available then (if s.minResolvedTS < acc then s.minResolvedTS else acc) else acc)
    maxUint64

/-- checkAndUpdateMinResolvedTS (cluster.go:2100-2121): returns the value to
persist, whether persistence is needed, and the updated cluster state. -/
def checkAndUpdateMinResolvedTS (c : ClusterMRT) : Nat × Bool × ClusterMRT :=
  if !c.inited then (maxUint64, false, c)
  else
    let cur := curMinResolvedTS c.stores
    if cur = maxUint64 ∨ cur ≤ c.minResolvedTS then (c.minResolvedTS, false, c)
    else (cur, true, { c with minResolvedTS := cur })

/-- GetMinResolvedTS (cluster.go:2166-2174). -/
def GetMinResolvedTS (c : ClusterMRT) : Nat :=
  if !c.inited then maxUint64 else c.minResolvedTS

/-! ## Data model: store lifecycle (server/cluster/cluster.go) -/

/-- Store states reachable through RemoveStore/BuryStore.  preparing and
serving together form the Up states; removing is Offline; removed is
Tombstone. -/
inductive StoreState where
  | preparing
  | serving
  | removing
  | removed
  deriving Repr, DecidableEq

/-- The store attributes RemoveStore and BuryStore read or write. -/
structure Store where
  state : StoreState
  physicallyDestroyed : Bool
  disconnected : Bool
  deriving Repr, DecidableEq

/-- Errors surfaced by the store lifecycle operations. -/
inductive StoreError where
  | notFound
  | storeRemoved
  | storeDestroyed
  | storeIsUp
  | notDisconnected
  | replicaCheckFailed
  deriving Repr, DecidableEq

/-- IsUp in the source holds for the preparing and serving node states. -/
def Store.IsUpState (s : Store) : Prop :=
  s.state = StoreState.preparing ∨ s.state = StoreState.serving

instance (s : Store) : Decidable s.IsUpState := by
  unfold Store.IsUpState
  infer_instance

/-- RemoveStore (cluster.go:1157-1205).  The cluster is modelled by the store
being removed (`none` when the id is unknown); `replicaCheckOK` stands for
checkReplicaBeforeOfflineStore succeeding, whose internals do not matter for
the paths under study.  On success the store is cloned with
core.OfflineStore(physicallyDestroyed), which moves it to the removing state
and records the flag. -/
def RemoveStore (store : Option Store) (physicallyDestroyed : Bool)
    (replicaCheckOK : Bool) : Except StoreError (Option Store) :=
  match store with
  | none => .error .notFound
  | some s =>
    if s.state = StoreState.removing ∧ s.physicallyDestroyed = physicallyDestroyed then
      .ok (some s)
    else if s.state = StoreState.removed then .error .storeRemoved
    else if s.physicallyDestroyed = true then .error .storeDestroyed
    else if s.IsUpState ∧ physicallyDestroyed = false ∧ replicaCheckOK = false then
      .error .replicaCheckFailed
    else
      .ok (some { s with state := StoreState.removing,
                         physicallyDestroyed := physicallyDestroyed })

/-- BuryStore (cluster.go:1272-1310).  On success the store is cloned with
core.TombstoneStore(), which moves it to the removed state. -/
def BuryStore (store : Option Store) (forceBury : Bool) :
    Except StoreError (Option Store) :=
  match store with
  | none => .error .notFound
  | some s =>
    if s.state = StoreState.removed then .ok (some s)
    else if s.IsUpState ∧ forceBury = false then .error .storeIsUp
    else if s.IsUpState ∧ s.disconnected = false then .error .notDisconnected
    else .ok (some { s with state := StoreState.removed })

/-! ## Data model: region heartbeats and epochs
(server/cluster/cluster.go processRegionHeartbeat, server/api admin cache drop) -/

/-- Region epoch: conf_ver increments on membership change, version on
split/merge. -/
structure RegionEpoch where
  confVer : Nat
  version : Nat
  deriving Repr, DecidableEq

/-- The slice of core.RegionInfo that the epoch claims are about. -/
structure RegionInfo where
  id : Nat
  epoch : RegionEpoch
  deriving Repr, DecidableEq

/-- Error produced for a stale heartbeat. -/
inductive HeartbeatErr where
  | regionIsStale
  deriving Repr, DecidableEq

/-- Modelled from the spec: core.BasicCluster.PreCheckPutRegion is not among
the extracted sources (only its caller processRegionHeartbeat is).  Per the
spec, a heartbeat whose conf_ver or version is strictly less than the cached
epoch is rejected as stale; with no cached region the heartbeat passes.  The
cache is restricted to the single region the claims quantify over. -/
def preCheckPutRegion (cache : Option RegionInfo) (r : RegionInfo) :
    Except HeartbeatErr Unit :=
  match cache with
  | none => .ok ()
  | some origin =>
    if r.epoch.version < origin.epoch.version ∨
        r.epoch.confVer < origin.epoch.confVer then
      .error .regionIsStale
    else .ok ()

/-- processRegionHeartbeat (cluster.go:774-885) restricted to the id/epoch
fields of the cached region: the pre-check failure is returned as an error
before any mutation, and an accepted heartbeat is put into the cache
(regionGuide always sets saveCache when any modelled field changed; when no
modelled field changed the put is the identity). -/
def processRegionHeartbeat (cache : Option RegionInfo) (r : RegionInfo) :
    Except HeartbeatErr (Option RegionInfo) :=
  match preCheckPutRegion cache r with
  | .error e => .error e
  | .ok _ => .ok (some r)

/-- One heartbeat against the cache; a rejected heartbeat leaves the cache
unchanged. -/
def hbStep (cache : Option RegionInfo) (r : RegionInfo) : Option RegionInfo :=
  match processRegionHeartbeat cache r with
  | .error _ => cache
  | .ok c => c

/-- Processing a whole sequence of heartbeats. -/
def hbRun (cache : Option RegionInfo) (l : List RegionInfo) : Option RegionInfo :=
  l.foldl hbStep cache

/-- The sub-sequence of heartbeats accepted (processed without error) along
the run. -/
def hbAccepted (cache : Option RegionInfo) : List RegionInfo → List RegionInfo
  | [] => []
  | r :: rest =>
    match processRegionHeartbeat cache r with
    | .error _ => hbAccepted cache rest
    | .ok c => r :: hbAccepted c rest

/-- Lexicographic order on epochs, conf_ver first. -/
def epochLexLe (a b : RegionEpoch) : Prop :=
  a.confVer < b.confVer ∨ (a.confVer = b.confVer ∧ a.version ≤ b.version)

/-- Componentwise order on epochs. -/
def epochCompLe (a b : RegionEpoch) : Prop :=
  a.confVer ≤ b.confVer ∧ a.version ≤ b.version

/-- DropCacheRegion (cluster.go:1003-1005) calls core.RemoveRegionIfExist,
which removes the region from the cache (the core container itself is not
among the extracted sources; its removal semantics is modelled from the
spec).  On the single-region cache this empties it. -/
def DropCacheRegion (_cache : Option RegionInfo) : Option RegionInfo := none

/-! ## Admin reset-ts (spec section 4.8, validated against TestResetTS) -/

/-- Physical part of a TSO value: the high 46 bits, in milliseconds. -/
def tsPhysical (ts : Nat) : Nat := ts / 2 ^ 18

/-- Maximal allowed gap between the physical part of a reset target and the
wall clock: 24 hours in milliseconds. -/
def maxResetTSGapMs : Nat := 24 * 60 * 60 * 1000

/-- Status and body of an admin HTTP response. -/
structure HTTPResp where
  status : Nat
  body : String
  deriving Repr, DecidableEq

/-- The string `pat` occurs inside `s`. -/
def strHasSub (s pat : String) : Prop := ∃ a b, s = a ++ (pat ++ b)

/-- Modelled from the spec: the POST /admin/reset-ts handler and
tso ResetUserTimestamp are not among the extracted sources (only TestResetTS
is).  Per the spec the target is accepted only if it is greater than the
current TSO and its physical part is within 24 hours of the wall clock,
otherwise it is rejected with a too-large or a smaller-than-now message; an
unparsable tso value is a 400.  `input` is the parsed tso (`none` when
parsing failed), `current` the current TSO value, `wall` the wall clock in
milliseconds. -/
def resetTS (input : Option Nat) (current : Nat) (wall : Nat) : HTTPResp :=
  match input with
  | none => ⟨400, "invalid tso value"⟩
  | some ts =>
    if ts ≤ current then ⟨403, "the specified ts is smaller than now"⟩
    else if wall + maxResetTSGapMs < tsPhysical ts then
      ⟨403, "the specified ts is too large than now"⟩
    else if tsPhysical ts + maxResetTSGapMs < wall then
      ⟨403, "the specified ts is smaller than now"⟩
    else ⟨200, "Reset ts successfully."⟩

/-! ## Operator step timeouts
(server/schedule/operator step timeouts, pinned by TestOpStepTimeout) -/

/-- The operator step kinds whose Timeout is under study.  ChangePeerV2Enter
and ChangePeerV2Leave are taken with one demoting and two promoting changes
as in TestOpStepTimeout, where their factor over the fast bound is 3. -/
inductive OpStep where
  | transferLeader
  | removePeer
  | splitRegion
  | promoteLearner
  | addPeer
  | addLearner
  | changePeerV2Enter
  | changePeerV2Leave
  | mergeRegion
  deriving Repr, DecidableEq

/-- FastOperatorWaitTime, in seconds. -/
def FastOperatorWaitTime : Nat := 10

/-- SlowOperatorWaitTime, in seconds. -/
def SlowOperatorWaitTime : Nat := 600

/-- Modelled from the spec and TestOpStepTimeout: the step executor sources
are not among the extracted files.  The test pins the fast executor rate at
0.1 s per MB (a 10 GB region gets 1000 s), so the fast wait is
max(10s, size×0.1s); the Go int64 truncation of 0.1×size is size/10 on the
sizes involved. -/
def fastStepWaitDuration (regionSize : Nat) : Nat :=
  max FastOperatorWaitTime (regionSize / 10)

/-- Slow executor wait: max(10min, size×6.0s), as both the spec and
TestOpStepTimeout agree. -/
def slowStepWaitDuration (regionSize : Nat) : Nat :=
  max SlowOperatorWaitTime (6 * regionSize)

/-- Timeout bound per step kind, pinned by TestOpStepTimeout: fast steps use
the fast wait, AddPeer/AddLearner the slow wait, ChangePeerV2 steps 3 times
the fast wait, MergeRegion 10 times the fast wait. -/
def OpStep.bound : OpStep → Nat → Nat
  | .transferLeader, s => fastStepWaitDuration s
  | .removePeer, s => fastStepWaitDuration s
  | .splitRegion, s => fastStepWaitDuration s
  | .promoteLearner, s => fastStepWaitDuration s
  | .addPeer, s => slowStepWaitDuration s
  | .addLearner, s => slowStepWaitDuration s
  | .changePeerV2Enter, s => 3 * fastStepWaitDuration s
  | .changePeerV2Leave, s => 3 * fastStepWaitDuration s
  | .mergeRegion, s => 10 * fastStepWaitDuration s

/-- Step Timeout(start, regionSize): true when the elapsed seconds since
start exceed the step's bound for the region size in MB. -/
def OpStep.timeout (step : OpStep) (elapsed : Nat) (regionSize : Nat) : Bool :=
  decide (step.bound regionSize < elapsed)

/-- The timeout bound exactly as the claim words it: fast steps
max(10s, size×1.0s); slow steps max(10min, size×6.0s); ChangePeerV2 steps 3
times the slow bound; MergeRegion 10 times the slow bound. -/
def OpStep.boundClaim : OpStep → Nat → Nat
  | .transferLeader, s => max 10 s
  | .removePeer, s => max 10 s
  | .splitRegion, s => max 10 s
  | .promoteLearner, s => max 10 s
  | .addPeer, s => max 600 (6 * s)
  | .addLearner, s => max 600 (6 * s)
  | .changePeerV2Enter, s => 3 * max 600 (6 * s)
  | .changePeerV2Leave, s => 3 * max 600 (6 * s)
  | .mergeRegion, s => 10 * max 600 (6 * s)

/-- Step timeout predicate as the claim words it. -/
def OpStep.timeoutClaim (step : OpStep) (elapsed : Nat) (regionSize : Nat) :
    Bool :=
  decide (step.boundClaim regionSize < elapsed)

/-- One row of the TestOpStepTimeout table: the steps checked, the region
size in MB, the elapsed seconds encoded in the start time, and the expected
Timeout result. -/
structure OpStepTimeoutCase where
  steps : List OpStep
  regionSize : Nat
  elapsed : Nat
  expect : Bool
  deriving Repr, DecidableEq

/-- The twelve rows of TestOpStepTimeout (operator test, cases 1-6, each with
a just-over and a just-under start time). -/
def opStepTimeoutTestData : List OpStepTimeoutCase :=
  [⟨[.addLearner, .addPeer], 10 * 1000, 6 * 10 * 1000 + 1, true⟩,
   ⟨[.addLearner, .addPeer], 10 * 1000, 6 * 10 * 1000 - 1, false⟩,
   ⟨[.addLearner, .addPeer], 10, 600 + 1, true⟩,
   ⟨[.addLearner, .addPeer], 10, 6 * 10 - 1, false⟩,
   ⟨[.removePeer, .transferLeader, .splitRegion, .promoteLearner],
     10 * 1000, 1000 + 1, true⟩,
   ⟨[.removePeer, .transferLeader, .splitRegion, .promoteLearner],
     10 * 1000, 1000 - 1, false⟩,
   ⟨[.removePeer, .transferLeader, .splitRegion, .promoteLearner],
     10, 10 + 1, true⟩,
   ⟨[.removePeer, .transferLeader, .splitRegion, .promoteLearner],
     10, 10 - 1, false⟩,
   ⟨[.changePeerV2Enter, .changePeerV2Leave], 10 * 1000, 3000 + 1, true⟩,
   ⟨[.changePeerV2Enter, .changePeerV2Leave], 10 * 1000, 3000 - 1, false⟩,
   ⟨[.mergeRegion], 10 * 1000, 10000 + 1, true⟩,
   ⟨[.mergeRegion], 10 * 1000, 10000 - 1, false⟩]

/-! ## Hot peer cache
(statistics hot_peer_cache, pinned by TestUpdateHotPeerStat and
TestCoolDownTransferLeader; the cache implementation itself is not among the
extracted sources and is modelled from the spec) -/

/-- Region heartbeats arrive every 60 s. -/
def RegionHeartBeatReportInterval : Nat := 60

/-- Store heartbeats arrive every 10 s. -/
def StoreHeartBeatReportInterval : Nat := 10

/-- The two kinds of hot-peer caches. -/
inductive RWType where
  | read
  | write
  deriving Repr, DecidableEq

/-- Report interval of a cache: read stats come from store heartbeats, write
stats from region heartbeats (pinned by TestUpdateHotPeerStat, where a Read
item with accumulated interval 12 s is already updated, and by TestCacheInherit
where the read flow divides by ReadReportInterval = 10 s). -/
def RWType.reportInterval : RWType → Nat
  | .read => StoreHeartBeatReportInterval
  | .write => RegionHeartBeatReportInterval

/-- Default anti_count given to a hot item: 2·m with
m = region_hb_interval / store_hb_interval for Read and m = 1 for Write. -/
def RWType.defaultAntiCount : RWType → Int
  | .read => 2 * (RegionHeartBeatReportInterval / StoreHeartBeatReportInterval)
  | .write => 2 * 1

/-- Action recorded on a returned stat. -/
inductive ActionType where
  | add
  | update
  | remove
  deriving Repr, DecidableEq

/-- The HotPeerStat fields the update rules read and write. -/
structure HotPeerStat where
  hotDegree : Int
  antiCount : Int
  intervalSum : Nat
  action : ActionType
  deriving Repr, DecidableEq

/-- A sample is hot when some load dimension reaches its threshold:
load/interval at least threshold, written division-free over naturals (the
loads exercised by the tests are integral). -/
def isHotSample (thresholds deltaLoads : List Nat) (interval : Nat) : Bool :=
  (thresholds.zip deltaLoads).any fun p => p.1 * interval ≤ p.2

/-- Modelled from the spec: updateHotPeerStat of the hot-peer cache, with the
rolling-median smoothing abstracted to the accumulated interval that gates
it.  A sample with no prior stat and zero interval is dropped, as is a
not-hot sample with no prior stat; a new hot stat below the report interval
starts warming up at degree 0.  With a prior stat the interval accumulates;
below the report interval the degrees are kept; at or above it a hot sample
increments hot_degree and refills anti_count, a cold sample decrements both
and turns into Remove when anti_count is exhausted.  Validated against the
whole TestUpdateHotPeerStat sequence. -/
def updateHotPeerStat (kind : RWType) (old : Option HotPeerStat)
    (thresholds deltaLoads : List Nat) (interval : Nat) : Option HotPeerStat :=
  match old with
  | none =>
    if interval = 0 then none
    else if !isHotSample thresholds deltaLoads interval then none
    else if interval < kind.reportInterval then
      some ⟨0, 0, interval, .update⟩
    else
      some ⟨1, kind.defaultAntiCount, interval % kind.reportInterval, .update⟩
  | some o =>
    let sum := o.intervalSum + interval
    if sum < kind.reportInterval then
      some ⟨o.hotDegree, o.antiCount, sum, .update⟩
    else if isHotSample thresholds deltaLoads interval then
      some ⟨o.hotDegree + 1, kind.defaultAntiCount,
        sum % kind.reportInterval, .update⟩
    else
      some ⟨o.hotDegree - 1, o.antiCount - 1, sum % kind.reportInterval,
        if o.antiCount - 1 ≤ 0 then .remove else .update⟩

/-- The update rule exactly as the claim words it: the hot/cold transition is
gated by the region-heartbeat report interval for both cache kinds. -/
def updateHotPeerStatClaim (kind : RWType) (old : Option HotPeerStat)
    (thresholds deltaLoads : List Nat) (interval : Nat) : Option HotPeerStat :=
  match old with
  | none =>
    if interval = 0 then none
    else if !isHotSample thresholds deltaLoads interval then none
    else if interval < RegionHeartBeatReportInterval then
      some ⟨0, 0, interval, .update⟩
    else
      some ⟨1, kind.defaultAntiCount,
        interval % RegionHeartBeatReportInterval, .update⟩
  | some o =>
    let sum := o.intervalSum + interval
    if sum < RegionHeartBeatReportInterval then
      some ⟨o.hotDegree, o.antiCount, sum, .update⟩
    else if isHotSample thresholds deltaLoads interval then
      some ⟨o.hotDegree + 1, kind.defaultAntiCount,
        sum % RegionHeartBeatReportInterval, .update⟩
    else
      some ⟨o.hotDegree - 1, o.antiCount - 1,
        sum % RegionHeartBeatReportInterval,
        if o.antiCount - 1 ≤ 0 then .remove else .update⟩

/-- One cold full-interval update, as iterated at the end of
TestUpdateHotPeerStat (thresholds 10, loads 60, interval 10 s). -/
def coldReadUpdate (s : Option HotPeerStat) : Option HotPeerStat :=
  match s with
  | none => none
  | some o => updateHotPeerStat .read (some o) [10, 10, 10] [60, 60, 60] 10

/-- Per-store entry of the read hot-peer cache used by the transfer-leader
cool-down logic: whether the peer was recorded as the region's leader, and
the time of the last observed leader transfer (0 when never). -/
structure CacheItem where
  isLeader : Bool
  lastTransferLeaderTime : Nat
  deriving Repr, DecidableEq

/-- Lookup of a store's item in the region's cache. -/
def lookupItem (cache : List (Nat × CacheItem)) (store : Nat) :
    Option CacheItem :=
  (cache.find? fun p => p.1 == store).map Prod.snd

/-- Modelled from the spec: justTransferLeader of the hot-peer cache holds
when the cached item marked as leader lives on a store other than the
region's current leader. -/
def justTransferLeader (cache : List (Nat × CacheItem)) (leader : Nat) :
    Bool :=
  cache.any fun p => p.2.isLeader && p.1 != leader

/-- The refreshed item for one reported peer: it records whether the peer is
now the leader; when the region just transferred its leader, an item with a
cached predecessor records the transfer time, otherwise it inherits the
cached time (a fresh item starts at 0, never transferred). -/
def refreshedItem (cache : List (Nat × CacheItem)) (jtl : Bool)
    (leader now st : Nat) : CacheItem :=
  match lookupItem cache st with
  | some o => ⟨st == leader, if jtl then now else o.lastTransferLeaderTime⟩
  | none => ⟨st == leader, 0⟩

/-- Modelled from the spec: the per-region pass of checkPeerFlow followed by
updateStat restricted to the cool-down fields: every reported peer gets its
refreshed item, and items of stores that no longer hold a peer are collected
as expired.  Validated against TestCoolDownTransferLeader. -/
def updateRegionItems (cache : List (Nat × CacheItem)) (peers : List Nat)
    (leader now : Nat) : List (Nat × CacheItem) :=
  peers.map fun st =>
    (st, refreshedItem cache (justTransferLeader cache leader) leader now st)

/-- IsNeedCoolDownTransferLeader: the last leader transfer is within
`threshold` report intervals of the present. -/
def IsNeedCoolDownTransferLeader (item : CacheItem) (threshold : Nat)
    (now : Nat) : Bool :=
  decide (now - item.lastTransferLeaderTime < threshold * RWType.read.reportInterval)

/-! ## Rule checker: orphan peer removal
(schedule/checker rule checker, pinned by
TestSkipFixOrphanPeerIfSelectedPeerisPendingOrDown and
TestPriorityFitHealthPeers; the checker and placement-fit implementations are
not among the extracted sources and are modelled from the spec) -/

/-- A region peer as the orphan-removal path sees it: its id, its store, and
whether the region reports it pending or down. -/
structure FitPeer where
  id : Nat
  storeId : Nat
  pending : Bool
  down : Bool
  deriving Repr, DecidableEq

/-- A peer is healthy when it is neither pending nor down. -/
def FitPeer.healthy (p : FitPeer) : Bool := !p.pending && !p.down

/-- A region restricted to what the orphan-removal path reads. -/
structure CheckerRegion where
  peers : List FitPeer
  deriving Repr, DecidableEq

/-- Modelled from the spec: peer selection of FitRegion for the single
default rule (count voters, no location labels configured in the test
cluster, so isolation does not discriminate): healthy peers are bound first,
in region order, then unhealthy ones, up to the rule's count.  This is the
health priority pinned by TestPriorityFitHealthPeers. -/
def selectFitPeers (peers : List FitPeer) (count : Nat) : List FitPeer :=
  (peers.filter FitPeer.healthy ++
    peers.filter fun p => !p.healthy).take (min count peers.length)

/-- The fit of a region against the default rule: the bound peers, whether
the rule is satisfied (count peers bound), and the remaining orphan peers. -/
structure RegionFit where
  selected : List FitPeer
  satisfied : Bool
  orphanPeers : List FitPeer
  deriving Repr, DecidableEq

/-- FitRegion for a single rule of the given count. -/
def fitRegion (r : CheckerRegion) (count : Nat) : RegionFit :=
  let sel := selectFitPeers r.peers count
  { selected := sel,
    satisfied := sel.length == count,
    orphanPeers := r.peers.filter fun p => !sel.contains p }

/-- The operator the orphan-removal path can produce. -/
inductive CheckerOp where
  | removeOrphanPeer (storeId : Nat)
  deriving Repr, DecidableEq

/-- Modelled from the spec: fixOrphanPeers of the rule checker removes the
first orphan peer, and only when every rule fit is satisfied and no peer
selected by a rule fit is pending or down (the gate pinned by
TestSkipFixOrphanPeerIfSelectedPeerisPendingOrDown). -/
def fixOrphanPeers (fit : RegionFit) : Option CheckerOp :=
  if fit.orphanPeers.isEmpty = true then none
  else if fit.satisfied = false then none
  else if (fit.selected.any fun p => p.pending || p.down) = true then none
  else
    match fit.orphanPeers with
    | [] => none
    | p :: _ => some (.removeOrphanPeer p.storeId)

/-- The rule checker's Check restricted to the orphan-removal stage (the
regions under study need no other repair). -/
def ruleCheckerCheck (r : CheckerRegion) (count : Nat) : Option CheckerOp :=
  fixOrphanPeers (fitRegion r count)

/-- The region of TestSkipFixOrphanPeerIfSelectedPeerisPendingOrDown, first
phase: peers on stores 1-4, peers 3 and 4 pending. -/
def regionSkipPhase1 : CheckerRegion :=
  ⟨[⟨1, 1, false, false⟩, ⟨2, 2, false, false⟩,
    ⟨3, 3, true, false⟩, ⟨4, 4, true, false⟩]⟩

/-- Second phase: peer 4 pending, peer 3 down. -/
def regionSkipPhase2 : CheckerRegion :=
  ⟨[⟨1, 1, false, false⟩, ⟨2, 2, false, false⟩,
    ⟨3, 3, false, true⟩, ⟨4, 4, true, false⟩]⟩

/-- Third phase: peer 3 back to normal, peer 4 still pending. -/
def regionSkipPhase3 : CheckerRegion :=
  ⟨[⟨1, 1, false, false⟩, ⟨2, 2, false, false⟩,
    ⟨3, 3, false, false⟩, ⟨4, 4, true, false⟩]⟩

/-- The region of TestPriorityFitHealthPeers: four peers on distinct stores,
peer 3 pending. -/
def regionPriorityFit : CheckerRegion :=
  ⟨[⟨1, 1, false, false⟩, ⟨2, 2, false, false⟩,
    ⟨3, 3, true, false⟩, ⟨4, 4, false, false⟩]⟩

/-! ## TSO allocator (spec section 4.8, pinned by TestLoadTimestamp) -/

/-- The logical part of a TSO has 18 bits. -/
def tsoMaxLogical : Nat := 2 ^ 18

/-- The persisted upper bound stays saveInterval (3 s, in ms) ahead of use. -/
def tsoSaveIntervalMs : Nat := 3000

/-- Allocator state: last issued physical (ms) and logical parts, and the
upper bound persisted to the meta store. -/
structure TSOState where
  physical : Nat
  logical : Nat
  maxSaved : Nat
  deriving Repr, DecidableEq

/-- The allocator invariant: the logical part fits in 18 bits and the
persisted upper bound is strictly ahead of the issued physical time. -/
def TSOState.Valid (s : TSOState) : Prop :=
  s.logical < tsoMaxLogical ∧ s.physical < s.maxSaved

/-- A timestamp value: (physical << 18) | logical. -/
def tsValue (physical logical : Nat) : Nat := physical * tsoMaxLogical + logical

/-- The value held in an allocator state. -/
def TSOState.value (s : TSOState) : Nat := tsValue s.physical s.logical

/-- Pushing the persisted upper bound: whenever the issued physical reaches
the persisted maximum, a new maximum saveInterval ahead is persisted first. -/
def tsoPushMax (oldMax p : Nat) : Nat :=
  if oldMax ≤ p then p + tsoSaveIntervalMs else oldMax

/-- Modelled from the spec: issuing one timestamp (GetTS with count 1; the
tso package is not among the extracted sources).  Physical is
max(lastPhysical, wallClock); on the same millisecond the logical part
increments, and on its 18-bit overflow the physical advances by 1 ms with the
logical reset. -/
def generateTSO (s : TSOState) (wall : Nat) : Nat × TSOState :=
  if s.physical < wall then
    (tsValue wall 1, ⟨wall, 1, tsoPushMax s.maxSaved wall⟩)
  else if s.logical + 1 < tsoMaxLogical then
    (tsValue s.physical (s.logical + 1),
      ⟨s.physical, s.logical + 1, tsoPushMax s.maxSaved s.physical⟩)
  else
    (tsValue (s.physical + 1) 1,
      ⟨s.physical + 1, 1, tsoPushMax s.maxSaved (s.physical + 1)⟩)

/-- Modelled from the spec: the cold-start sync of the allocator.  When the
persisted maximum exceeds the wall clock (the system clock went backwards)
the allocator starts from the persisted maximum, otherwise from the wall
clock; the upper bound is persisted ahead before any timestamp is issued. -/
def tsoRestart (persisted wall : Nat) : TSOState :=
  if wall < persisted then ⟨persisted, 0, persisted + tsoSaveIntervalMs⟩
  else ⟨wall, 0, wall + tsoSaveIntervalMs⟩

/-- A sequence of GetTSO calls, one per observed wall-clock reading. -/
def tsoRun (s : TSOState) : List Nat → List Nat × TSOState
  | [] => ([], s)
  | w :: rest =>
    let v := generateTSO s w
    let vs := tsoRun v.2 rest
    (v.1 :: vs.1, vs.2)

/-! ## Theorems -/

/-- Claim C9: GetMinResolvedTS returns 2^64 - 1 whenever the cluster is not
initialized; the stored min-resolved-ts is non-decreasing;
checkAndUpdateMinResolvedTS replaces it only when the minimum of the available
stores' reported values is strictly greater than the stored value, and in
every other case reports that no persistence is needed and leaves the state
unchanged. -/
theorem c9_min_resolved_ts (c : ClusterMRT) :
    (c.inited = false → GetMinResolvedTS c = 2 ^ 64 - 1) ∧
    c.minResolvedTS ≤ (checkAndUpdateMinResolvedTS c).2.2.minResolvedTS ∧
    ((checkAndUpdateMinResolvedTS c).2.1 = true →
      c.minResolvedTS < curMinResolvedTS c.stores ∧
      (checkAndUpdateMinResolvedTS c).2.2.minResolvedTS = curMinResolvedTS c.stores) ∧
    ((checkAndUpdateMinResolvedTS c).2.1 = false →
      (checkAndUpdateMinResolvedTS c).2.2 = c) := by
  rcases c with ⟨inited, stores, mrt⟩
  cases inited with
  | false => simp [GetMinResolvedTS, checkAndUpdateMinResolvedTS, maxUint64]
  | true =>
    simp only [GetMinResolvedTS, checkAndUpdateMinResolvedTS, Bool.not_true,
      Bool.false_eq_true, if_false]
    by_cases h : curMinResolvedTS stores = maxUint64 ∨ curMinResolvedTS stores ≤ mrt
    · simp [h]
    · push_neg at h
      simp [h, le_of_lt h.2, h.2, h.2.not_le]

/-- Witness for c9_min_resolved_ts: an uninitialized cluster reports the
sentinel, and an initialized cluster with one available store reporting 5
above the stored 3 persists 5. -/
theorem c9_min_resolved_ts_witness :
    GetMinResolvedTS ⟨false, [], 0⟩ = 2 ^ 64 - 1 ∧
    ((⟨true, [⟨true, 5⟩], 3⟩ : ClusterMRT).minResolvedTS <
        curMinResolvedTS [⟨true, 5⟩] ∧
      (checkAndUpdateMinResolvedTS ⟨true, [⟨true, 5⟩], 3⟩).2.2.minResolvedTS =
        curMinResolvedTS [⟨true, 5⟩]) :=
  ⟨(c9_min_resolved_ts ⟨false, [], 0⟩).1 rfl,
   (c9_min_resolved_ts ⟨true, [⟨true, 5⟩], 3⟩).2.2.1 (by decide)⟩

/-- Successful RemoveStore always leaves the store in the removing state with
the requested physically-destroyed flag. -/
theorem removeStore_ok_shape (s : Store) (pd rck : Bool) (t : Option Store)
    (h : RemoveStore (some s) pd rck = .ok t) :
    ∃ s', t = some s' ∧ s'.state = StoreState.removing ∧
      s'.physicallyDestroyed = pd := by
  simp only [RemoveStore] at h
  by_cases h1 : s.state = StoreState.removing ∧ s.physicallyDestroyed = pd
  · rw [if_pos h1] at h
    cases h
    exact ⟨s, rfl, h1.1, h1.2⟩
  · rw [if_neg h1] at h
    by_cases h2 : s.state = StoreState.removed
    · rw [if_pos h2] at h; cases h
    · rw [if_neg h2] at h
      by_cases h3 : s.physicallyDestroyed = true
      · rw [if_pos h3] at h; cases h
      · rw [if_neg h3] at h
        by_cases h4 : s.IsUpState ∧ pd = false ∧ rck = false
        · rw [if_pos h4] at h; cases h
        · rw [if_neg h4] at h
          cases h
          exact ⟨_, rfl, rfl, rfl⟩

/-- Successful BuryStore always leaves the store tombstoned. -/
theorem buryStore_ok_shape (s : Store) (force : Bool) (t : Option Store)
    (h : BuryStore (some s) force = .ok t) :
    ∃ s', t = some s' ∧ s'.state = StoreState.removed := by
  simp only [BuryStore] at h
  by_cases h1 : s.state = StoreState.removed
  · rw [if_pos h1] at h
    cases h
    exact ⟨s, rfl, h1⟩
  · rw [if_neg h1] at h
    by_cases h2 : s.IsUpState ∧ force = false
    · rw [if_pos h2] at h; cases h
    · rw [if_neg h2] at h
      by_cases h3 : s.IsUpState ∧ s.disconnected = false
      · rw [if_pos h3] at h; cases h
      · rw [if_neg h3] at h
        cases h
        exact ⟨_, rfl, rfl⟩

/-- Claim C10: RemoveStore on a store already in the removing state with the
same physically-destroyed flag returns nil without modifying the store;
BuryStore on a store already tombstoned returns nil without modifying the
store; hence a second identical call after a successful RemoveStore or
BuryStore is a no-op. -/
theorem c10_remove_bury_idempotent (s : Store) (pd force rck : Bool) :
    (s.state = StoreState.removing → s.physicallyDestroyed = pd →
      RemoveStore (some s) pd rck = .ok (some s)) ∧
    (s.state = StoreState.removed → BuryStore (some s) force = .ok (some s)) ∧
    (∀ t, RemoveStore (some s) pd rck = .ok t → RemoveStore t pd rck = .ok t) ∧
    (∀ t, BuryStore (some s) force = .ok t → BuryStore t force = .ok t) := by
  refine ⟨?_, ?_, ?_, ?_⟩
  · intro h1 h2
    simp [RemoveStore, h1, h2]
  · intro h1
    simp [BuryStore, h1]
  · intro t h
    obtain ⟨s', rfl, h1, h2⟩ := removeStore_ok_shape s pd rck t h
    simp [RemoveStore, h1, h2]
  · intro t h
    obtain ⟨s', rfl, h1⟩ := buryStore_ok_shape s force t h
    simp [BuryStore, h1]

/-- Witness for c10_remove_bury_idempotent at a concrete store: a removing
store with the flag already set is untouched by RemoveStore, a tombstone is
untouched by BuryStore, and repeating each successful call is a no-op. -/
theorem c10_remove_bury_idempotent_witness :
    RemoveStore (some ⟨StoreState.removing, true, false⟩) true true =
      .ok (some ⟨StoreState.removing, true, false⟩) ∧
    BuryStore (some ⟨StoreState.removed, false, false⟩) false =
      .ok (some ⟨StoreState.removed, false, false⟩) ∧
    RemoveStore (some ⟨StoreState.removing, true, false⟩) true true =
      .ok (some ⟨StoreState.removing, true, false⟩) ∧
    BuryStore (some ⟨StoreState.removed, false, false⟩) false =
      .ok (some ⟨StoreState.removed, false, false⟩) :=
  ⟨(c10_remove_bury_idempotent ⟨StoreState.removing, true, false⟩ true false true).1
      rfl rfl,
   (c10_remove_bury_idempotent ⟨StoreState.removed, false, false⟩ false false true).2.1
      rfl,
   (c10_remove_bury_idempotent ⟨StoreState.removing, true, false⟩ true false true).2.2.1
      (some ⟨StoreState.removing, true, false⟩)
      ((c10_remove_bury_idempotent ⟨StoreState.removing, true, false⟩ true false true).1
        rfl rfl),
   (c10_remove_bury_idempotent ⟨StoreState.removed, false, false⟩ false false true).2.2.2
      (some ⟨StoreState.removed, false, false⟩)
      ((c10_remove_bury_idempotent ⟨StoreState.removed, false, false⟩ false false true).2.1
        rfl)⟩

/-- epochCompLe is reflexive. -/
theorem epochCompLe_refl (a : RegionEpoch) : epochCompLe a a :=
  ⟨le_refl _, le_refl _⟩

/-- epochCompLe is transitive. -/
theorem epochCompLe_trans {a b c : RegionEpoch} (h1 : epochCompLe a b)
    (h2 : epochCompLe b c) : epochCompLe a c :=
  ⟨le_trans h1.1 h2.1, le_trans h1.2 h2.2⟩

/-- Componentwise order implies lexicographic order on epochs. -/
theorem epochCompLe_lexLe {a b : RegionEpoch} (h : epochCompLe a b) :
    epochLexLe a b := by
  rcases lt_or_eq_of_le h.1 with hc | hc
  · exact Or.inl hc
  · exact Or.inr ⟨hc, h.2⟩

/-- An accepted heartbeat dominates the cached epoch componentwise. -/
theorem accepted_compLe {c r : RegionInfo}
    (h : preCheckPutRegion (some c) r = .ok ()) :
    epochCompLe c.epoch r.epoch := by
  by_cases hc : r.epoch.version < c.epoch.version ∨
      r.epoch.confVer < c.epoch.confVer
  · simp [preCheckPutRegion, hc] at h
  · push_neg at hc
    exact ⟨hc.2, hc.1⟩

/-- Invariant of a heartbeat run started from a non-empty cache: the run never
empties the cache, the final region is the initial one or one of the accepted
heartbeats, and its epoch dominates the initial epoch and every accepted
epoch componentwise. -/
theorem hbRun_some_invariant (l : List RegionInfo) : ∀ c : RegionInfo,
    ∃ d, hbRun (some c) l = some d ∧
      epochCompLe c.epoch d.epoch ∧
      (d = c ∨ d ∈ hbAccepted (some c) l) ∧
      ∀ a ∈ hbAccepted (some c) l,
        epochCompLe a.epoch d.epoch ∧ epochCompLe c.epoch a.epoch := by
  induction l with
  | nil =>
    intro c
    exact ⟨c, rfl, epochCompLe_refl _, Or.inl rfl, by simp [hbAccepted]⟩
  | cons r rest ih =>
    intro c
    by_cases hc : preCheckPutRegion (some c) r = .ok ()
    · have hstep : hbStep (some c) r = some r := by
        simp [hbStep, processRegionHeartbeat, hc]
      have hacc : hbAccepted (some c) (r :: rest) =
          r :: hbAccepted (some r) rest := by
        simp [hbAccepted, processRegionHeartbeat, hc]
      obtain ⟨d, hd1, hd2, hd3, hd4⟩ := ih r
      have hcr := accepted_compLe hc
      refine ⟨d, ?_, epochCompLe_trans hcr hd2, ?_, ?_⟩
      · simpa [hbRun, hstep] using hd1
      · rcases hd3 with h | h
        · exact Or.inr (by rw [hacc, h]; exact List.mem_cons_self _ _)
        · exact Or.inr (by rw [hacc]; exact List.mem_cons_of_mem _ h)
      · intro a ha
        rw [hacc] at ha
        rcases List.mem_cons.mp ha with rfl | ha
        · exact ⟨hd2, hcr⟩
        · exact ⟨(hd4 a ha).1, epochCompLe_trans hcr (hd4 a ha).2⟩
    · have herr : processRegionHeartbeat (some c) r = .error .regionIsStale := by
        unfold processRegionHeartbeat
        rcases h : preCheckPutRegion (some c) r with e | u
        · cases e
          rfl
        · cases u
          exact absurd h hc
      have hstep : hbStep (some c) r = some c := by
        simp [hbStep, herr]
      have hacc : hbAccepted (some c) (r :: rest) = hbAccepted (some c) rest := by
        simp [hbAccepted, herr]
      obtain ⟨d, hd1, hd2, hd3, hd4⟩ := ih c
      refine ⟨d, ?_, hd2, ?_, ?_⟩
      · simpa [hbRun, hstep] using hd1
      · rwa [hacc]
      · intro a ha
        rw [hacc] at ha
        exact hd4 a ha

/-- Claim C1: a heartbeat whose conf_ver or version is strictly less than the
cached epoch makes processRegionHeartbeat return an error and leaves the
cached region unchanged; after any sequence of heartbeats starting from an
empty cache, the cached epoch is the lexicographic maximum of the accepted
heartbeats' epochs (it is one of them and dominates all of them), and the
cache is empty only for the empty sequence. -/
theorem c1_epoch_monotonic :
    (∀ o r : RegionInfo,
      (r.epoch.confVer < o.epoch.confVer ∨ r.epoch.version < o.epoch.version) →
      processRegionHeartbeat (some o) r = .error .regionIsStale ∧
        hbStep (some o) r = some o) ∧
    (∀ (l : List RegionInfo) (d : RegionInfo), hbRun none l = some d →
      d.epoch ∈ (hbAccepted none l).map RegionInfo.epoch ∧
        ∀ e ∈ (hbAccepted none l).map RegionInfo.epoch, epochLexLe e d.epoch) ∧
    (∀ l : List RegionInfo, hbRun none l = none → l = []) := by
  refine ⟨?_, ?_, ?_⟩
  · intro o r h
    have hcond : r.epoch.version < o.epoch.version ∨
        r.epoch.confVer < o.epoch.confVer := h.elim Or.inr Or.inl
    have herr : processRegionHeartbeat (some o) r = .error .regionIsStale := by
      simp [processRegionHeartbeat, preCheckPutRegion, hcond]
    exact ⟨herr, by simp [hbStep, herr]⟩
  · rintro (_ | ⟨r, rest⟩) d hd
    · cases hd
    · have hstep : hbStep none r = some r := rfl
      have hacc : hbAccepted none (r :: rest) = r :: hbAccepted (some r) rest :=
        rfl
      have hrun : hbRun none (r :: rest) = hbRun (some r) rest := by
        simp [hbRun, hstep]
      obtain ⟨d', hd1, _, hd3, hd4⟩ := hbRun_some_invariant rest r
      rw [hrun, hd1] at hd
      cases hd
      constructor
      · rw [hacc]
        rcases hd3 with rfl | h
        · exact List.mem_map_of_mem _ (List.mem_cons_self _ _)
        · exact List.mem_map_of_mem _ (List.mem_cons_of_mem _ h)
      · intro e he
        rw [hacc] at he
        obtain ⟨a, ha, rfl⟩ := List.mem_map.mp he
        rcases List.mem_cons.mp ha with rfl | ha
        · rcases hd3 with rfl | h
          · exact epochCompLe_lexLe (epochCompLe_refl _)
          · exact epochCompLe_lexLe (hd4 _ h).2
        · exact epochCompLe_lexLe (hd4 a ha).1
  · rintro (_ | ⟨r, rest⟩) h
    · rfl
    · have hstep : hbStep none r = some r := rfl
      have hrun : hbRun none (r :: rest) = hbRun (some r) rest := by
        simp [hbRun, hstep]
      obtain ⟨d', hd1, -, -, -⟩ := hbRun_some_invariant rest r
      rw [hrun, hd1] at h
      cases h

/-- Witness for c1_epoch_monotonic: the (100,100) region rejects a (50,50)
heartbeat unchanged, and a concrete two-heartbeat run from the empty cache
ends at the lexicographic maximum of the accepted epochs. -/
theorem c1_epoch_monotonic_witness :
    (processRegionHeartbeat (some ⟨1, ⟨100, 100⟩⟩) ⟨1, ⟨50, 50⟩⟩ =
        .error .regionIsStale ∧
      hbStep (some ⟨1, ⟨100, 100⟩⟩) ⟨1, ⟨50, 50⟩⟩ = some ⟨1, ⟨100, 100⟩⟩) ∧
    ((⟨1, ⟨2, 2⟩⟩ : RegionInfo).epoch ∈
        (hbAccepted none [⟨1, ⟨1, 1⟩⟩, ⟨1, ⟨2, 2⟩⟩]).map RegionInfo.epoch ∧
      ∀ e ∈ (hbAccepted none [⟨1, ⟨1, 1⟩⟩, ⟨1, ⟨2, 2⟩⟩]).map RegionInfo.epoch,
        epochLexLe e (⟨1, ⟨2, 2⟩⟩ : RegionInfo).epoch) :=
  ⟨(c1_epoch_monotonic.1 ⟨1, ⟨100, 100⟩⟩ ⟨1, ⟨50, 50⟩⟩ (by simp)),
   (c1_epoch_monotonic.2.1 [⟨1, ⟨1, 1⟩⟩, ⟨1, ⟨2, 2⟩⟩] ⟨1, ⟨2, 2⟩⟩ (by rfl))⟩

/-- Claim C8: with a region of epoch (100,100) cached, a (50,50) heartbeat is
rejected; after DropCacheRegion empties the cache the same (50,50) heartbeat
is accepted without error, becomes the cached region, and the cached epoch
then reads (50,50). -/
theorem c8_drop_cache_region (o r : RegionInfo) (h1 : o.epoch = ⟨100, 100⟩)
    (h2 : r.epoch = ⟨50, 50⟩) :
    processRegionHeartbeat (some o) r = .error .regionIsStale ∧
    DropCacheRegion (some o) = none ∧
    processRegionHeartbeat (DropCacheRegion (some o)) r = .ok (some r) ∧
    (hbStep (DropCacheRegion (some o)) r).map RegionInfo.epoch =
      some ⟨50, 50⟩ := by
  refine ⟨?_, rfl, rfl, ?_⟩
  · simp [processRegionHeartbeat, preCheckPutRegion, h1, h2]
  · simp [hbStep, processRegionHeartbeat, preCheckPutRegion, DropCacheRegion, h2]

/-- Witness for c8_drop_cache_region at the concrete regions of the
TestDropRegion scenario. -/
theorem c8_drop_cache_region_witness :
    processRegionHeartbeat (some ⟨1, ⟨100, 100⟩⟩) ⟨1, ⟨50, 50⟩⟩ =
        .error .regionIsStale ∧
    DropCacheRegion (some ⟨1, ⟨100, 100⟩⟩) = none ∧
    processRegionHeartbeat (DropCacheRegion (some ⟨1, ⟨100, 100⟩⟩)) ⟨1, ⟨50, 50⟩⟩ =
        .ok (some ⟨1, ⟨50, 50⟩⟩) ∧
    (hbStep (DropCacheRegion (some ⟨1, ⟨100, 100⟩⟩)) ⟨1, ⟨50, 50⟩⟩).map
        RegionInfo.epoch = some ⟨50, 50⟩ :=
  c8_drop_cache_region ⟨1, ⟨100, 100⟩⟩ ⟨1, ⟨50, 50⟩⟩ rfl rfl

/-- Claim C3: reset-ts returns 200 exactly when the target is greater than
the current TSO and its physical part is within 24 hours of the wall clock;
a target at most the current TSO gets a 403 whose body contains "small"; a
target whose physical part exceeds the wall clock by more than 24 hours gets
a 403 whose body contains "too large"; an unparsable tso value gets a 400.
The hypothesis states the standing invariant that the current TSO's physical
part does not exceed the wall clock by more than the 24-hour gap. -/
theorem c3_reset_ts (input : Option Nat) (current wall : Nat)
    (hcur : current < (wall + maxResetTSGapMs + 1) * 2 ^ 18) :
    (input = none → resetTS input current wall = ⟨400, "invalid tso value"⟩) ∧
    (∀ ts, input = some ts →
      ((resetTS input current wall).status = 200 ↔
        current < ts ∧ tsPhysical ts ≤ wall + maxResetTSGapMs ∧
          wall ≤ tsPhysical ts + maxResetTSGapMs) ∧
      (ts ≤ current →
        (resetTS input current wall).status = 403 ∧
          strHasSub (resetTS input current wall).body "small") ∧
      (wall + maxResetTSGapMs < tsPhysical ts →
        (resetTS input current wall).status = 403 ∧
          strHasSub (resetTS input current wall).body "too large")) := by
  constructor
  · rintro rfl
    rfl
  · rintro ts rfl
    by_cases h1 : ts ≤ current
    · have hstat : resetTS (some ts) current wall =
          ⟨403, "the specified ts is smaller than now"⟩ := by
        simp [resetTS, h1]
      refine ⟨?_, ?_, ?_⟩
      · rw [hstat]
        constructor
        · intro h
          cases h
        · rintro ⟨hlt, -, -⟩
          exact absurd h1 (not_le.mpr hlt)
      · intro _
        exact ⟨by rw [hstat], by
          rw [hstat]
          exact ⟨"the specified ts is ", "er than now", rfl⟩⟩
      · intro h2
        exfalso
        have hp : wall + maxResetTSGapMs + 1 ≤ tsPhysical ts := h2
        have h3 : (wall + maxResetTSGapMs + 1) * 2 ^ 18 ≤ ts :=
          le_trans (Nat.mul_le_mul_right _ hp) (Nat.div_mul_le_self ts (2 ^ 18))
        omega
    · push_neg at h1
      by_cases h2 : wall + maxResetTSGapMs < tsPhysical ts
      · have hstat : resetTS (some ts) current wall =
            ⟨403, "the specified ts is too large than now"⟩ := by
          simp [resetTS, h1.not_le, h2]
        refine ⟨?_, ?_, ?_⟩
        · rw [hstat]
          constructor
          · intro h
            cases h
          · rintro ⟨-, hle, -⟩
            exact absurd h2 (not_lt.mpr hle)
        · intro hle
          exact absurd hle (not_le.mpr h1)
        · intro _
          exact ⟨by rw [hstat], by
            rw [hstat]
            exact ⟨"the specified ts is ", " than now", rfl⟩⟩
      · push_neg at h2
        by_cases h3 : tsPhysical ts + maxResetTSGapMs < wall
        · have hstat : resetTS (some ts) current wall =
              ⟨403, "the specified ts is smaller than now"⟩ := by
            simp [resetTS, h1.not_le, h2.not_lt, h3]
          refine ⟨?_, ?_, ?_⟩
          · rw [hstat]
            constructor
            · intro h
              cases h
            · rintro ⟨-, -, hge⟩
              exact absurd h3 (not_lt.mpr hge)
          · intro hle
            exact absurd hle (not_le.mpr h1)
          · intro hgt
            exact absurd hgt (not_lt.mpr h2)
        · push_neg at h3
          have hstat : resetTS (some ts) current wall =
              ⟨200, "Reset ts successfully."⟩ := by
            simp [resetTS, h1.not_le, h2.not_lt, h3.not_lt]
          refine ⟨?_, ?_, ?_⟩
          · rw [hstat]
            exact ⟨fun _ => ⟨h1, h2, h3⟩, fun _ => rfl⟩
          · intro hle
            exact absurd hle (not_le.mpr h1)
          · intro hgt
            exact absurd hgt (not_lt.mpr h2)

/-- Witness for c3_reset_ts: with the wall clock at 10^12 ms and the current
TSO just above it, replay the four TestResetTS probes: +1h accepted with 200,
+32h rejected 403 "too large", -2h rejected 403 "small", and the unparsable
value rejected 400. -/
theorem c3_reset_ts_witness :
    (resetTS none (10 ^ 12 * 2 ^ 18) (10 ^ 12) = ⟨400, "invalid tso value"⟩) ∧
    ((resetTS (some ((10 ^ 12 + 3600000) * 2 ^ 18)) (10 ^ 12 * 2 ^ 18)
        (10 ^ 12)).status = 200 ↔
      10 ^ 12 * 2 ^ 18 < (10 ^ 12 + 3600000) * 2 ^ 18 ∧
        tsPhysical ((10 ^ 12 + 3600000) * 2 ^ 18) ≤ 10 ^ 12 + maxResetTSGapMs ∧
        10 ^ 12 ≤ tsPhysical ((10 ^ 12 + 3600000) * 2 ^ 18) + maxResetTSGapMs) ∧
    ((resetTS (some ((10 ^ 12 + 115200000) * 2 ^ 18)) (10 ^ 12 * 2 ^ 18)
        (10 ^ 12)).status = 403 ∧
      strHasSub (resetTS (some ((10 ^ 12 + 115200000) * 2 ^ 18))
        (10 ^ 12 * 2 ^ 18) (10 ^ 12)).body "too large") ∧
    ((resetTS (some ((10 ^ 12 - 7200000) * 2 ^ 18)) (10 ^ 12 * 2 ^ 18)
        (10 ^ 12)).status = 403 ∧
      strHasSub (resetTS (some ((10 ^ 12 - 7200000) * 2 ^ 18))
        (10 ^ 12 * 2 ^ 18) (10 ^ 12)).body "small") :=
  ⟨(c3_reset_ts none (10 ^ 12 * 2 ^ 18) (10 ^ 12) (by norm_num [maxResetTSGapMs])).1
      rfl,
   ((c3_reset_ts (some ((10 ^ 12 + 3600000) * 2 ^ 18)) (10 ^ 12 * 2 ^ 18)
        (10 ^ 12) (by norm_num [maxResetTSGapMs])).2 _ rfl).1,
   ((c3_reset_ts (some ((10 ^ 12 + 115200000) * 2 ^ 18)) (10 ^ 12 * 2 ^ 18)
        (10 ^ 12) (by norm_num [maxResetTSGapMs])).2 _ rfl).2.2
      (by norm_num [tsPhysical, maxResetTSGapMs]),
   ((c3_reset_ts (some ((10 ^ 12 - 7200000) * 2 ^ 18)) (10 ^ 12 * 2 ^ 18)
        (10 ^ 12) (by norm_num [maxResetTSGapMs])).2 _ rfl).2.1
      (by norm_num [tsPhysical])⟩

/-- Counterexample for claim C4: the step-timeout model that reproduces every
row of TestOpStepTimeout disagrees with the claim's formula.  At a RemovePeer
step on a 10 GB (10000 MB) region after 1001 s, the test demands a timeout,
but the claim's fast bound max(10s, 10000×1.0s) = 10000 s says none. -/
theorem c4_step_timeout_counterexample :
    (opStepTimeoutTestData.all fun c =>
      c.steps.all fun st => st.timeout c.elapsed c.regionSize == c.expect) = true ∧
    OpStep.timeout OpStep.removePeer 1001 10000 = true ∧
    OpStep.timeoutClaim OpStep.removePeer 1001 10000 = false := by
  refine ⟨?_, ?_, ?_⟩ <;> decide

/-- Claim C4 as amended: a step times out exactly when the elapsed time
exceeds its bound, where the bound is max(10s, size×0.1s) for TransferLeader,
RemovePeer, SplitRegion and PromoteLearner; max(10min, size×6.0s) for AddPeer
and AddLearner; 3 times the fast bound for the ChangePeerV2 steps of
TestOpStepTimeout; and 10 times the fast bound for MergeRegion; this model
reproduces the whole TestOpStepTimeout table. -/
theorem c4_step_timeout_amended (step : OpStep) (elapsed regionSize : Nat) :
    ((step = .transferLeader ∨ step = .removePeer ∨ step = .splitRegion ∨
        step = .promoteLearner) →
      (step.timeout elapsed regionSize = true ↔
        max 10 (regionSize / 10) < elapsed)) ∧
    ((step = .addPeer ∨ step = .addLearner) →
      (step.timeout elapsed regionSize = true ↔
        max 600 (6 * regionSize) < elapsed)) ∧
    ((step = .changePeerV2Enter ∨ step = .changePeerV2Leave) →
      (step.timeout elapsed regionSize = true ↔
        3 * max 10 (regionSize / 10) < elapsed)) ∧
    (step = .mergeRegion →
      (step.timeout elapsed regionSize = true ↔
        10 * max 10 (regionSize / 10) < elapsed)) ∧
    (opStepTimeoutTestData.all fun c =>
      c.steps.all fun st => st.timeout c.elapsed c.regionSize == c.expect) = true := by
  refine ⟨?_, ?_, ?_, ?_, by decide⟩ <;>
    · intro h
      rcases step <;> simp_all [OpStep.timeout, OpStep.bound,
        fastStepWaitDuration, slowStepWaitDuration,
        FastOperatorWaitTime, SlowOperatorWaitTime]

/-- Witness for c4_step_timeout_amended: a 10 GB region with a RemovePeer
step after 1001 s and a MergeRegion step after 10001 s, matching the test's
boundary rows. -/
theorem c4_step_timeout_amended_witness :
    (OpStep.timeout OpStep.removePeer 1001 10000 = true ↔
      max 10 (10000 / 10) < 1001) ∧
    (OpStep.timeout OpStep.mergeRegion 10001 10000 = true ↔
      10 * max 10 (10000 / 10) < 10001) :=
  ⟨(c4_step_timeout_amended OpStep.removePeer 1001 10000).1
      (Or.inr (Or.inl rfl)),
   (c4_step_timeout_amended OpStep.mergeRegion 10001 10000).2.2.2.1 rfl⟩

/-- The hot-peer update model reproduces the whole TestUpdateHotPeerStat
sequence: drop at zero interval, drop of a not-hot new peer, warm-up below
the report interval, the hot transition to degree 1 with anti_count 2·m at
accumulated interval 12 s, the second hot transition, one cold decrement, and
the 11 further cold updates that exhaust anti_count and turn the action into
Remove with a negative degree. -/
theorem updateHotPeerStat_test_sequence :
    updateHotPeerStat .read none [0, 0, 0] [0, 0, 0] 0 = none ∧
    updateHotPeerStat .read none [1, 1, 1] [0, 0, 0] 10 = none ∧
    updateHotPeerStat .read none [0, 0, 0] [60, 60, 60] 4 =
      some ⟨0, 0, 4, .update⟩ ∧
    updateHotPeerStat .read (some ⟨0, 0, 4, .update⟩) [0, 0, 0] [60, 60, 60] 4 =
      some ⟨0, 0, 8, .update⟩ ∧
    updateHotPeerStat .read (some ⟨0, 0, 8, .update⟩) [0, 0, 0] [60, 60, 60] 4 =
      some ⟨1, 12, 2, .update⟩ ∧
    updateHotPeerStat .read (some ⟨1, 12, 2, .update⟩) [0, 0, 0] [60, 60, 60] 4 =
      some ⟨1, 12, 6, .update⟩ ∧
    updateHotPeerStat .read (some ⟨1, 12, 6, .update⟩) [0, 0, 0] [60, 60, 60] 10 =
      some ⟨2, 12, 6, .update⟩ ∧
    updateHotPeerStat .read (some ⟨2, 12, 6, .update⟩) [10, 10, 10] [60, 60, 60] 10 =
      some ⟨1, 11, 6, .update⟩ ∧
    coldReadUpdate^[11] (some ⟨1, 11, 6, .update⟩) =
      some ⟨-10, 0, 6, .remove⟩ := by
  decide

/-- Counterexample for claim C5: TestUpdateHotPeerStat asserts that after the
third 4-second Read sample (accumulated interval 12 s) the item's hot_degree
is 1 and its anti_count 2·m, which the model reproduces; under the claim's
gate — the region-heartbeat report interval of 60 s — the item would still be
warming up at degree 0 with the interval merely accumulated. -/
theorem c5_hot_peer_update_counterexample :
    updateHotPeerStat .read (some ⟨0, 0, 8, .update⟩) [0, 0, 0] [60, 60, 60] 4 =
      some ⟨1, 12, 2, .update⟩ ∧
    updateHotPeerStatClaim .read (some ⟨0, 0, 8, .update⟩) [0, 0, 0]
      [60, 60, 60] 4 = some ⟨0, 0, 12, .update⟩ := by
  decide

/-- Claim C5 as amended: a sample with no prior stat and interval 0 produces
no item; once the accumulated interval reaches the cache's report interval
(the store-heartbeat interval for Read, the region-heartbeat interval for
Write), a sample over the threshold in any dimension increments hot_degree by
1 and sets anti_count to 2·m with m = region_hb_interval / store_hb_interval
for Read and m = 1 for Write; a below-threshold sample decrements anti_count,
and when it reaches 0 the item's action becomes Remove. -/
theorem c5_hot_peer_update_amended (kind : RWType) (o : HotPeerStat)
    (thresholds deltaLoads : List Nat) (interval : Nat) :
    updateHotPeerStat kind none thresholds deltaLoads 0 = none ∧
    (kind.reportInterval ≤ o.intervalSum + interval →
      isHotSample thresholds deltaLoads interval = true →
      updateHotPeerStat kind (some o) thresholds deltaLoads interval =
        some ⟨o.hotDegree + 1, kind.defaultAntiCount,
          (o.intervalSum + interval) % kind.reportInterval, .update⟩) ∧
    (RWType.read.defaultAntiCount =
        2 * (RegionHeartBeatReportInterval / StoreHeartBeatReportInterval) ∧
      RWType.write.defaultAntiCount = 2 * 1) ∧
    (kind.reportInterval ≤ o.intervalSum + interval →
      isHotSample thresholds deltaLoads interval = false →
      updateHotPeerStat kind (some o) thresholds deltaLoads interval =
        some ⟨o.hotDegree - 1, o.antiCount - 1,
          (o.intervalSum + interval) % kind.reportInterval,
          if o.antiCount - 1 ≤ 0 then .remove else .update⟩) := by
  refine ⟨by simp [updateHotPeerStat], ?_, ⟨rfl, rfl⟩, ?_⟩
  · intro h1 h2
    simp [updateHotPeerStat, Nat.not_lt.mpr h1, h2]
  · intro h1 h2
    simp [updateHotPeerStat, Nat.not_lt.mpr h1, h2]

/-- Witness for c5_hot_peer_update_amended at the two full-interval rows of
TestUpdateHotPeerStat: the hot transition from the warming item and the cold
decrement from degree 2. -/
theorem c5_hot_peer_update_amended_witness :
    updateHotPeerStat .read (some ⟨0, 0, 8, .update⟩) [0, 0, 0] [60, 60, 60] 4 =
      some ⟨0 + 1, RWType.read.defaultAntiCount,
        (8 + 4) % RWType.read.reportInterval, .update⟩ ∧
    updateHotPeerStat .read (some ⟨2, 12, 6, .update⟩) [10, 10, 10]
        [60, 60, 60] 10 =
      some ⟨2 - 1, 12 - 1, (6 + 10) % RWType.read.reportInterval,
        if (12 : Int) - 1 ≤ 0 then .remove else .update⟩ :=
  ⟨(c5_hot_peer_update_amended .read ⟨0, 0, 8, .update⟩ [0, 0, 0] [60, 60, 60]
      4).2.1 (by decide) (by decide),
   (c5_hot_peer_update_amended .read ⟨2, 12, 6, .update⟩ [10, 10, 10]
      [60, 60, 60] 10).2.2.2 (by decide) (by decide)⟩

/-- Looking up a reported peer after the per-region pass yields its
refreshed item. -/
theorem lookupItem_updateRegionItems (cache : List (Nat × CacheItem))
    (peers : List Nat) (leader now st : Nat) (h : st ∈ peers) :
    lookupItem (updateRegionItems cache peers leader now) st =
      some (refreshedItem cache (justTransferLeader cache leader)
        leader now st) := by
  induction peers with
  | nil => cases h
  | cons p rest ih =>
    rcases eq_or_ne p st with rfl | hp
    · simp [updateRegionItems, lookupItem]
    · rcases List.mem_cons.mp h with heq | h2
      · exact absurd heq.symm hp
      · have hb : (p == st) = false := beq_eq_false_iff_ne.mpr hp
        have hrec := ih h2
        simp only [updateRegionItems, List.map_cons, lookupItem,
          List.find?_cons, hb] at hrec ⊢
        exact hrec

/-- Claim C6: when the cache records a leader transfer for the region, the
new leader's read item enters the transfer-leader cool-down, and
IsNeedCoolDownTransferLeader with threshold 3 holds for the next 3 report
intervals; updates in which the recorded leader is unchanged — the move-peer,
add-replica and remove-replica operations — never record a transfer, leave
the transfer time of every surviving item untouched, and therefore never put
a stat into the cool-down state. -/
theorem c6_cool_down_transfer_leader (cache : List (Nat × CacheItem))
    (peers : List Nat) (leader now t : Nat) :
    (∀ newLeader o,
      justTransferLeader cache newLeader = true →
      newLeader ∈ peers →
      lookupItem cache newLeader = some o →
      ∀ item,
        lookupItem (updateRegionItems cache peers newLeader now) newLeader =
          some item →
        now ≤ t → t < now + 3 * RWType.read.reportInterval →
        IsNeedCoolDownTransferLeader item 3 t = true) ∧
    ((∀ p ∈ cache, p.2.isLeader = true → p.1 = leader) →
      justTransferLeader cache leader = false) ∧
    (justTransferLeader cache leader = false →
      ∀ st ∈ peers, ∀ o, lookupItem cache st = some o →
        ∀ item,
          lookupItem (updateRegionItems cache peers leader now) st =
            some item →
          item.lastTransferLeaderTime = o.lastTransferLeaderTime ∧
          (IsNeedCoolDownTransferLeader o 3 t = false →
            IsNeedCoolDownTransferLeader item 3 t = false)) := by
  refine ⟨?_, ?_, ?_⟩
  · intro newLeader o hjtl hmem ho item hitem h1 h2
    rw [lookupItem_updateRegionItems cache peers newLeader now newLeader hmem]
      at hitem
    rw [refreshedItem, ho, hjtl] at hitem
    cases hitem
    simp only [IsNeedCoolDownTransferLeader, if_pos, decide_eq_true_eq]
    simp only [RWType.reportInterval, StoreHeartBeatReportInterval] at h2 ⊢
    omega
  · intro h
    rw [justTransferLeader, List.any_eq_false]
    intro p hp
    cases hl : p.2.isLeader with
    | false => simp [hl]
    | true => simp [hl, h p hp hl]
  · intro hjtl st hst o ho item hitem
    rw [lookupItem_updateRegionItems cache peers leader now st hst] at hitem
    rw [refreshedItem, ho, hjtl] at hitem
    cases hitem
    exact ⟨rfl, fun h => h⟩

/-- Witness for c6_cool_down_transfer_leader on the TestCoolDownTransferLeader
shape: a three-peer region whose cached leader sits on store 2.  Transferring
leadership to store 3 at time 1000 puts store 3's item into cool-down at time
1020 (within 3 read intervals); an update keeping leader 2 (as move-peer,
add-replica and remove-replica do) leaves store 2's never-transferred item out
of cool-down. -/
theorem c6_cool_down_transfer_leader_witness :
    IsNeedCoolDownTransferLeader ⟨true, 1000⟩ 3 1020 = true ∧
    IsNeedCoolDownTransferLeader ⟨true, 0⟩ 3 1020 = false :=
  ⟨(c6_cool_down_transfer_leader
      [(1, ⟨false, 0⟩), (2, ⟨true, 0⟩), (3, ⟨false, 0⟩)] [1, 2, 3] 2 1000 1020).1
      3 ⟨false, 0⟩ (by decide) (by decide) (by decide) ⟨true, 1000⟩ (by decide)
      (by decide) (by decide),
   ((c6_cool_down_transfer_leader
      [(1, ⟨false, 0⟩), (2, ⟨true, 0⟩), (3, ⟨false, 0⟩)] [1, 2, 3] 2 1000 1020).2.2
      (by decide) 2 (by decide) ⟨true, 0⟩ (by decide) ⟨true, 0⟩ (by decide)).2
      (by decide)⟩

/-- Counterexample for claim C2: in the TestPriorityFitHealthPeers region all
rules are satisfied by the healthy peers on stores 1, 2 and 4, the orphan is
the pending peer on store 3, and the rule checker does produce
remove-orphan-peer removing it — the peer selected for removal is itself
pending, which the claim forbids. -/
theorem c2_orphan_peer_counterexample :
    ruleCheckerCheck regionPriorityFit 3 =
      some (CheckerOp.removeOrphanPeer 3) ∧
    ((regionPriorityFit.peers.filter fun p => p.storeId == 3).all
      fun p => p.pending) = true ∧
    (regionPriorityFit.peers.filter fun p => p.storeId == 3) ≠ [] := by
  refine ⟨?_, ?_, ?_⟩ <;> decide

/-- Claim C2 as amended: the rule checker produces a remove-orphan-peer
operator only when every placement rule is satisfied and no peer bound by the
rule fits is pending or down; the orphan peer it removes may itself be
pending or down (unhealthy peers are left outside the fit by the
health-priority selection and removed first).  The four phases of the two
source tests are reproduced. -/
theorem c2_orphan_peer_gate_amended (r : CheckerRegion) (count : Nat) :
    (∀ op, ruleCheckerCheck r count = some op →
      (fitRegion r count).satisfied = true ∧
      ∀ p ∈ (fitRegion r count).selected, p.pending = false ∧ p.down = false) ∧
    ruleCheckerCheck regionSkipPhase1 3 = none ∧
    ruleCheckerCheck regionSkipPhase2 3 = none ∧
    ruleCheckerCheck regionSkipPhase3 3 =
      some (CheckerOp.removeOrphanPeer 4) ∧
    ruleCheckerCheck regionPriorityFit 3 =
      some (CheckerOp.removeOrphanPeer 3) := by
  refine ⟨?_, by decide, by decide, by decide, by decide⟩
  intro op h
  unfold ruleCheckerCheck fixOrphanPeers at h
  by_cases h1 : (fitRegion r count).orphanPeers.isEmpty = true
  · rw [if_pos h1] at h
    cases h
  · rw [if_neg h1] at h
    by_cases h2 : (fitRegion r count).satisfied = false
    · rw [if_pos h2] at h
      cases h
    · rw [if_neg h2] at h
      by_cases h3 :
          ((fitRegion r count).selected.any fun p => p.pending || p.down) = true
      · rw [if_pos h3] at h
        cases h
      · refine ⟨eq_true_of_ne_false h2, ?_⟩
        intro p hp
        have h4 := List.any_eq_false.mp (Bool.eq_false_iff.mpr h3) p hp
        simpa using h4

/-- Witness for c2_orphan_peer_gate_amended on the TestPriorityFitHealthPeers
region: the produced operator implies the rule is satisfied and every bound
peer is healthy. -/
theorem c2_orphan_peer_gate_amended_witness :
    (fitRegion regionPriorityFit 3).satisfied = true ∧
    ∀ p ∈ (fitRegion regionPriorityFit 3).selected,
      p.pending = false ∧ p.down = false :=
  (c2_orphan_peer_gate_amended regionPriorityFit 3).1
    (CheckerOp.removeOrphanPeer 3) (by decide)

/-- The pushed bound stays strictly ahead of the issued physical. -/
theorem tsoPushMax_lt (oldMax p : Nat) : p < tsoPushMax oldMax p := by
  unfold tsoPushMax tsoSaveIntervalMs
  split
  · omega
  · omega

/-- The pushed bound never decreases. -/
theorem tsoPushMax_mono (oldMax p : Nat) : oldMax ≤ tsoPushMax oldMax p := by
  unfold tsoPushMax tsoSaveIntervalMs
  split
  · omega
  · omega

/-- One issued timestamp strictly exceeds the state's previous value, equals
the new state's value, preserves the allocator invariant, and never lowers
the persisted bound. -/
theorem generateTSO_step (s : TSOState) (wall : Nat) (h : s.Valid) :
    (generateTSO s wall).2.Valid ∧
    s.value < (generateTSO s wall).1 ∧
    (generateTSO s wall).1 = (generateTSO s wall).2.value ∧
    s.maxSaved ≤ (generateTSO s wall).2.maxSaved := by
  obtain ⟨hl, hp⟩ := h
  unfold generateTSO
  by_cases h1 : s.physical < wall
  · rw [if_pos h1]
    refine ⟨⟨by simp [tsoMaxLogical], tsoPushMax_lt _ _⟩, ?_, rfl,
      tsoPushMax_mono _ _⟩
    unfold TSOState.value tsValue tsoMaxLogical at *
    omega
  · rw [if_neg h1]
    by_cases h2 : s.logical + 1 < tsoMaxLogical
    · rw [if_pos h2]
      refine ⟨⟨h2, tsoPushMax_lt _ _⟩, ?_, rfl, tsoPushMax_mono _ _⟩
      unfold TSOState.value tsValue tsoMaxLogical at *
      omega
    · rw [if_neg h2]
      refine ⟨⟨by simp [tsoMaxLogical], tsoPushMax_lt _ _⟩, ?_, rfl,
        tsoPushMax_mono _ _⟩
      unfold TSOState.value tsValue tsoMaxLogical at *
      omega

/-- Invariant of a run of GetTSO calls: validity is preserved, the persisted
bound and the held value never decrease, the issued values strictly increase,
and every issued value lies strictly above the initial value and at most at
the final value. -/
theorem tsoRun_invariant (walls : List Nat) : ∀ s : TSOState, s.Valid →
    (tsoRun s walls).2.Valid ∧
    s.maxSaved ≤ (tsoRun s walls).2.maxSaved ∧
    s.value ≤ (tsoRun s walls).2.value ∧
    List.Chain' (· < ·) (tsoRun s walls).1 ∧
    ∀ v ∈ (tsoRun s walls).1,
      s.value < v ∧ v ≤ (tsoRun s walls).2.value := by
  induction walls with
  | nil =>
    intro s hs
    exact ⟨hs, le_refl _, le_refl _, List.chain'_nil, by simp [tsoRun]⟩
  | cons w rest ih =>
    intro s hs
    obtain ⟨hv, hlt, heq, hmax⟩ := generateTSO_step s w hs
    obtain ⟨ih1, ih2, ih3, ih4, ih5⟩ := ih (generateTSO s w).2 hv
    have hrun : tsoRun s (w :: rest) =
        ((generateTSO s w).1 :: (tsoRun (generateTSO s w).2 rest).1,
          (tsoRun (generateTSO s w).2 rest).2) := by
      simp only [tsoRun]
    rw [hrun]
    refine ⟨ih1, le_trans hmax ih2, ?_, ?_, ?_⟩
    · exact le_trans (le_of_lt (lt_of_lt_of_le hlt (le_of_eq heq))) ih3
    · rw [List.chain'_cons']
      refine ⟨?_, ih4⟩
      intro y hy
      have hym : y ∈ (tsoRun (generateTSO s w).2 rest).1 :=
        List.mem_of_mem_head? hy
      exact lt_of_le_of_lt (le_of_eq heq) (ih5 y hym).1
    · intro v hv2
      rcases List.mem_cons.mp hv2 with rfl | hv2
      · exact ⟨hlt, le_trans (le_of_eq heq) ih3⟩
      · exact ⟨lt_trans (lt_of_lt_of_le hlt (le_of_eq heq)) (ih5 v hv2).1,
          (ih5 v hv2).2⟩

/-- Claim C7: when the persisted TSO upper bound at restart exceeds the wall
clock, the allocator starts from the persisted maximum, every timestamp
issued after the restart is strictly greater than every timestamp issued
before it, and the whole issued sequence remains strictly increasing across
the restart. -/
theorem c7_tso_restart_monotonic (s0 : TSOState) (h0 : s0.Valid)
    (walls1 walls2 : List Nat) (wall : Nat)
    (hslow : wall < (tsoRun s0 walls1).2.maxSaved) :
    (tsoRestart (tsoRun s0 walls1).2.maxSaved wall).physical =
      (tsoRun s0 walls1).2.maxSaved ∧
    (∀ a ∈ (tsoRun s0 walls1).1,
      ∀ b ∈ (tsoRun (tsoRestart (tsoRun s0 walls1).2.maxSaved wall) walls2).1,
      a < b) ∧
    List.Chain' (· < ·) ((tsoRun s0 walls1).1 ++
      (tsoRun (tsoRestart (tsoRun s0 walls1).2.maxSaved wall) walls2).1) := by
  obtain ⟨h1, h2, h3, h4, h5⟩ := tsoRun_invariant walls1 s0 h0
  have hr : tsoRestart (tsoRun s0 walls1).2.maxSaved wall =
      ⟨(tsoRun s0 walls1).2.maxSaved, 0,
        (tsoRun s0 walls1).2.maxSaved + tsoSaveIntervalMs⟩ := by
    simp [tsoRestart, hslow]
  have hrv : (tsoRestart (tsoRun s0 walls1).2.maxSaved wall).Valid := by
    rw [hr]
    exact ⟨by simp [tsoMaxLogical], by simp [tsoSaveIntervalMs]⟩
  obtain ⟨g1, g2, g3, g4, g5⟩ :=
    tsoRun_invariant walls2 (tsoRestart (tsoRun s0 walls1).2.maxSaved wall) hrv
  have hgap : ∀ a ∈ (tsoRun s0 walls1).1,
      a < (tsoRestart (tsoRun s0 walls1).2.maxSaved wall).value := by
    intro a ha
    have h6 := (h5 a ha).2
    have h7 : (tsoRun s0 walls1).2.value <
        (tsoRestart (tsoRun s0 walls1).2.maxSaved wall).value := by
      rw [hr]
      obtain ⟨hx, hy⟩ := h1
      unfold TSOState.value tsValue tsoMaxLogical at *
      simp only at hx hy ⊢
      have := Nat.mul_le_mul_right (2 ^ 18) (Nat.succ_le_of_lt hy)
      omega
    omega
  refine ⟨by rw [hr], ?_, ?_⟩
  · intro a ha b hb
    exact lt_of_lt_of_le (lt_of_lt_of_le (hgap a ha) (le_refl _))
      (le_of_lt (g5 b hb).1)
  · rw [List.chain'_append]
    refine ⟨h4, g4, ?_⟩
    intro x hx y hy
    have hx2 : x ∈ (tsoRun s0 walls1).1 :=
      List.mem_of_mem_getLast? hx
    have hy2 : y ∈
        (tsoRun (tsoRestart (tsoRun s0 walls1).2.maxSaved wall) walls2).1 :=
      List.mem_of_mem_head? hy
    exact lt_trans (hgap x hx2) (g5 y hy2).1

/-- Witness for c7_tso_restart_monotonic on a concrete slow-clock restart:
the allocator issues at walls 150 and 160 ms, persists bound 200 ms, restarts
at wall 50 ms (clock gone backwards), starts from physical 200, and the
timestamp issued at wall 55 ms strictly exceeds both earlier ones. -/
theorem c7_tso_restart_monotonic_witness :
    (tsoRestart (tsoRun ⟨100, 0, 200⟩ [150, 160]).2.maxSaved 50).physical =
      (tsoRun ⟨100, 0, 200⟩ [150, 160]).2.maxSaved ∧
    (∀ a ∈ (tsoRun ⟨100, 0, 200⟩ [150, 160]).1,
      ∀ b ∈ (tsoRun (tsoRestart (tsoRun ⟨100, 0, 200⟩ [150, 160]).2.maxSaved
        50) [55]).1, a < b) ∧
    List.Chain' (· < ·) ((tsoRun ⟨100, 0, 200⟩ [150, 160]).1 ++
      (tsoRun (tsoRestart (tsoRun ⟨100, 0, 200⟩ [150, 160]).2.maxSaved 50)
        [55]).1) :=
  c7_tso_restart_monotonic ⟨100, 0, 200⟩ ⟨by decide, by decide⟩ [150, 160]
    [55] 50 (by decide)

end PDVerify
